import Mathlib

/-!
Verification development for the `retail-sol-bot` quote-aggregation core
(`q1/commons.ts`, `q1/quote-fallback.ts`, `q1/quote-jup.ts`).

The TypeScript code is shallowly embedded: machine timestamps become `Int`
milliseconds, JavaScript numbers become `ℚ`, `Math.log` is kept abstract as a
parameter `lg : ℚ → ℚ`, error values become their message strings, and the
asynchronous operations become explicit result values supplied by an
environment.  Mutable object state (the circuit breaker record) becomes
explicit state passing.
-/

/-- Provider tag of a quote (`source` field of `QuoteResponse` in
`q1/commons.ts`). -/
inductive Source where
  | jupiter
  | dflow
  | hashflow
  | pythOracle
deriving DecidableEq, Repr

/-- Confidence level of a quote (`confidence` field of `QuoteResponse`). -/
inductive Confidence where
  | high
  | medium
  | low
deriving DecidableEq, Repr

/-- The `QuoteResponse` record of `q1/commons.ts`.  The decimal strings
(`inputAmount`, `outputAmount`, `otherAmountThreshold`) are represented by
their parsed numeric values (the scorer reads them through `parseFloat`), the
opaque `routePlan: any[]` entries are represented by strings, and a missing
`warnings` field is represented by the empty list (both give warning count
zero in every consumer). -/
structure Quote where
  inputAmount : ℚ
  outputAmount : ℚ
  priceImpactPct : ℚ
  routePlan : List String
  otherAmountThreshold : ℚ
  swapMode : String
  slippageBps : ℚ
  source : Source
  confidence : Confidence
  warnings : List String
deriving DecidableEq, Repr

/-! ## Circuit breaker (`q1/commons.ts`, class `CircuitBreaker`) -/

/-- Constructor parameters of `CircuitBreaker`.  `timeoutMs` is stored by the
constructor but never read by the breaker logic; it is kept for fidelity. -/
structure CBConfig where
  failureThreshold : Nat
  timeoutMs : Int
  halfOpenRetryDelayMs : Int
deriving DecidableEq, Repr

/-- The mutable `CircuitBreakerState` record. -/
structure CircuitBreakerState where
  isOpen : Bool
  failureCount : Nat
  lastFailureTime : Int
  nextAttemptTime : Int
deriving DecidableEq, Repr

/-- Initial breaker state (field initializer of `CircuitBreaker.state`). -/
def cbInit : CircuitBreakerState :=
  { isOpen := false, failureCount := 0, lastFailureTime := 0, nextAttemptTime := 0 }

/-- Outcome of one `CircuitBreaker.execute` call: the wrapped operation's
value, the re-raised operation failure, or the fast-fail
`Circuit breaker is OPEN` error thrown without invoking the operation. -/
inductive ExecOutcome (α : Type) where
  | success (a : α)
  | failure (msg : String)
  | circuitOpen
deriving DecidableEq, Repr

/-- `CircuitBreaker.execute`, with the wall clock `now` and the operation's
eventual result passed explicitly.  Returns the call outcome together with
the breaker state after the call (the TypeScript method mutates
`this.state`). -/
def CircuitBreaker.execute {α : Type} (cfg : CBConfig) (st : CircuitBreakerState)
    (now : Int) (op : Except String α) : ExecOutcome α × CircuitBreakerState :=
  if st.isOpen = true ∧ now < st.nextAttemptTime then
    (ExecOutcome.circuitOpen, st)
  else
    -- possibly move to half-open: `this.state.isOpen = false`
    let st1 := if st.isOpen = true then { st with isOpen := false } else st
    match op with
    | Except.ok a =>
        -- `onSuccess`
        (ExecOutcome.success a, { st1 with failureCount := 0, isOpen := false })
    | Except.error m =>
        -- `onFailure`
        let st2 := { st1 with failureCount := st1.failureCount + 1, lastFailureTime := now }
        if cfg.failureThreshold ≤ st2.failureCount then
          (ExecOutcome.failure m,
            { st2 with isOpen := true, nextAttemptTime := now + cfg.halfOpenRetryDelayMs })
        else
          (ExecOutcome.failure m, st2)

/-- State evolution of a breaker under a sequence of calls whose wrapped
operations all fail, the calls happening at the given times with the given
error messages. -/
def failTimes (cfg : CBConfig) (st : CircuitBreakerState) :
    List (Int × String) → CircuitBreakerState
  | [] => st
  | f :: fs =>
      failTimes cfg
        (CircuitBreaker.execute (α := Unit) cfg st f.1 (Except.error f.2)).2 fs

/-! ## Retry manager (`q1/commons.ts`, class `RetryManager`) -/

/-- Does the first list start with the second one? -/
def listStartsWith {α : Type} [DecidableEq α] : List α → List α → Bool
  | _, [] => true
  | [], _ :: _ => false
  | a :: as, b :: bs => if a = b then listStartsWith as bs else false

/-- Does the first list contain the second one as a contiguous segment? -/
def listHasSeg {α : Type} [DecidableEq α] : List α → List α → Bool
  | [], needle => listStartsWith [] needle
  | a :: as, needle => listStartsWith (a :: as) needle || listHasSeg as needle

/-- JavaScript `String.prototype.includes` (substring containment), used by
`isNonRetryableError` on the error message. -/
def strIncludes (s sub : String) : Bool :=
  listHasSeg s.toList sub.toList

/-- `RetryManager.isNonRetryableError`, reading the error as its message
string. -/
def isNonRetryableError (msg : String) : Bool :=
  strIncludes msg "invalid token" || strIncludes msg "token not found" ||
    strIncludes msg "invalid amount" || strIncludes msg "unauthorized"

/-- Result of one `executeWithRetry` call: the returned / thrown value, the
total backoff delay slept, and how many times the operation was invoked. -/
structure RetryResult (α : Type) where
  result : Except String α
  totalDelayMs : ℚ
  invocations : Nat
deriving Repr

/-- Loop body of `RetryManager.executeWithRetry`.  `attempt` is the loop
index, the fuel argument is `maxRetries - attempt` (so fuel `0` means this is
the last permitted attempt), `acc` accumulates the backoff delays and
`jitter` supplies the value of `Math.random() * 100` at each attempt. -/
def retryGo {α : Type} (op : Nat → Except String α) (jitter : Nat → ℚ)
    (baseDelayMs maxDelayMs : ℚ) : Nat → Nat → ℚ → RetryResult α
  | attempt, fuel, acc =>
    match op attempt with
    | Except.ok a => ⟨Except.ok a, acc, attempt + 1⟩
    | Except.error m =>
      match fuel with
      | 0 => ⟨Except.error m, acc, attempt + 1⟩
      | fuel' + 1 =>
        if isNonRetryableError m then
          ⟨Except.error m, acc, attempt + 1⟩
        else
          retryGo op jitter baseDelayMs maxDelayMs (attempt + 1) fuel'
            (acc + min (baseDelayMs * 2 ^ attempt + jitter attempt) maxDelayMs)

/-- `RetryManager.executeWithRetry(operation, maxRetries, baseDelayMs,
maxDelayMs)`.  The operation is modelled as a function from the attempt index
to that attempt's result. -/
def executeWithRetry {α : Type} (op : Nat → Except String α) (jitter : Nat → ℚ)
    (maxRetries : Nat) (baseDelayMs maxDelayMs : ℚ) : RetryResult α :=
  retryGo op jitter baseDelayMs maxDelayMs 0 maxRetries 0

/-! ## Primary (Jupiter) response validation
(`q1/quote-jup.ts`, `JupiterQuoteService.getQuote`, response-quality block) -/

/-- Warning pushed when `priceImpact > 5`. -/
def highImpactWarning : String :=
  "High price impact detected - may indicate illiquid routing"

/-- Warning pushed when `routePlan.length > 4`. -/
def complexRoutingWarning : String :=
  "Complex routing detected - multiple hops may increase slippage"

/-- The fields of the parsed Jupiter API JSON body that the validation block
reads.  `priceImpact` is the value of `parseFloat(data.priceImpactPact ||
'0')` and a missing `routePlan` is the empty list (the code substitutes
`[]`). -/
structure JupiterData where
  inAmount : ℚ
  outAmount : ℚ
  priceImpact : ℚ
  routePlan : List String
  otherAmountThreshold : ℚ
  swapMode : String
  slippageBps : ℚ
deriving DecidableEq, Repr

/-- The response-quality validation of `JupiterQuoteService.getQuote`:
derives confidence and warnings from price impact and route length and
assembles the returned `QuoteResponse`. -/
def jupiterNormalize (d : JupiterData) : Quote :=
  let w1 : List String := if d.priceImpact > 5 then [highImpactWarning] else []
  let c1 : Confidence :=
    if d.priceImpact > 5 then Confidence.low
    else if d.priceImpact > 1 then Confidence.medium
    else Confidence.high
  let w2 : List String := if d.routePlan.length > 4 then [complexRoutingWarning] else []
  let c2 : Confidence :=
    if d.routePlan.length > 4 then
      (if c1 = Confidence.high then Confidence.medium else Confidence.low)
    else c1
  { inputAmount := d.inAmount
    outputAmount := d.outAmount
    priceImpactPct := d.priceImpact
    routePlan := d.routePlan
    otherAmountThreshold := d.otherAmountThreshold
    swapMode := d.swapMode
    slippageBps := d.slippageBps
    source := Source.jupiter
    confidence := c2
    warnings := w1 ++ w2 }

/-- Confidence from price impact alone, transcribed from the claim: impact
above 5 percent is low, impact in (1, 5] is medium, otherwise high.  Spec
wording, kept separate to compare against `jupiterNormalize`. -/
def specImpactConfidence (impact : ℚ) : Confidence :=
  if impact > 5 then Confidence.low
  else if impact > 1 then Confidence.medium
  else Confidence.high

/-- One-level confidence downgrade, transcribed from the claim: high drops to
medium, medium or low drop to low. -/
def specDowngradeOne : Confidence → Confidence
  | Confidence.high => Confidence.medium
  | Confidence.medium => Confidence.low
  | Confidence.low => Confidence.low

/-- Final primary-source confidence per the claim: the impact-derived level,
downgraded one level further when the route has more than 4 hops. -/
def specJupiterConfidence (impact : ℚ) (hops : Nat) : Confidence :=
  if hops > 4 then specDowngradeOne (specImpactConfidence impact)
  else specImpactConfidence impact

/-! ## Scoring and selection
(`q1/quote-jup.ts`, `QuoteAggregatorService.calculateQuoteScore` and
`selectBestQuote`) -/

/-- `QuoteAggregatorService.calculateQuoteScore`.  `lg` abstracts
`Math.log`. -/
def calculateQuoteScore (lg : ℚ → ℚ) (q : Quote) : ℚ :=
  let s1 : ℚ :=
    match q.confidence with
    | Confidence.high => 1000
    | Confidence.medium => 500
    | Confidence.low => 100
  let s2 : ℚ := s1 + lg (q.outputAmount + 1) * 10
  let s3 : ℚ := s2 +
    match q.source with
    | Source.jupiter => 100
    | Source.hashflow => 80
    | Source.dflow => 60
    | Source.pythOracle => 20
  if q.warnings.length > 0 then s3 - q.warnings.length * 50 else s3

/-- The scoring formula transcribed from the claim: confidence base score
plus liquidity term plus source-reliability bonus minus 50 per warning.  Spec
wording, kept separate to compare against `calculateQuoteScore`. -/
def specQuoteScore (lg : ℚ → ℚ) (q : Quote) : ℚ :=
  (match q.confidence with
   | Confidence.high => (1000 : ℚ)
   | Confidence.medium => 500
   | Confidence.low => 100)
  + lg (q.outputAmount + 1) * 10
  + (match q.source with
     | Source.jupiter => (100 : ℚ)
     | Source.hashflow => 80
     | Source.dflow => 60
     | Source.pythOracle => 20)
  - 50 * q.warnings.length

/-- Stable insertion of a quote into a list sorted by descending score: the
inserted quote goes in front of the first entry whose score does not exceed
it.  Together with `sortByScoreDesc` this models `Array.prototype.sort` with
comparator `(a, b) => b.score - a.score`, which is stable (equal-score
entries keep their original relative order). -/
def insertByScoreDesc (lg : ℚ → ℚ) (x : Quote) : List Quote → List Quote
  | [] => [x]
  | y :: ys =>
      if calculateQuoteScore lg y ≤ calculateQuoteScore lg x then x :: y :: ys
      else y :: insertByScoreDesc lg x ys

/-- Stable sort by descending score (`scored.sort((a, b) => b.score -
a.score)`). -/
def sortByScoreDesc (lg : ℚ → ℚ) : List Quote → List Quote
  | [] => []
  | x :: xs => insertByScoreDesc lg x (sortByScoreDesc lg xs)

/-- `QuoteAggregatorService.selectBestQuote`: error on an empty list,
otherwise the head of the list sorted by descending score. -/
def selectBestQuote (lg : ℚ → ℚ) (quotes : List Quote) : Except String Quote :=
  match sortByScoreDesc lg quotes with
  | [] => Except.error "No quotes available"
  | q :: _ => Except.ok q

/-- The first quote in list order attaining the maximal score; `none` only
for the empty list.  Reference function used to characterize
`selectBestQuote`. -/
def leftmostMaxByScore (lg : ℚ → ℚ) : List Quote → Option Quote
  | [] => none
  | x :: xs =>
      match leftmostMaxByScore lg xs with
      | none => some x
      | some m =>
          if calculateQuoteScore lg m ≤ calculateQuoteScore lg x then some x
          else some m

/-! ## Aggregator orchestration
(`q1/quote-jup.ts`, `QuoteAggregatorService.getOptimalQuote` and
`executeParallelWithFallback`) -/

/-- Environment of one `getOptimalQuote` call: the result each upstream call
would produce, and the wall-clock time elapsed since `startTime` at each of
the three points where the code reads `Date.now()` to compute a remaining
budget (lines 113, 133 and 157).  `jupiterOp` is indexed by the retry-attempt
number; `jupiterJitter` supplies the retry backoff jitter. -/
structure AggEnv where
  jupiterOp : Nat → Except String Quote
  jupiterJitter : Nat → ℚ
  dflowOp : Except String Quote
  hashflowOp : Except String Quote
  oracleOp : Except String Quote
  elapsed1 : Int
  elapsed2 : Int
  elapsed3 : Int

/-- The primary attempt's retry wrapper:
`retryManager.executeWithRetry(() => services[0].getQuote(..), 2, 50, 200)`. -/
def primaryAttempt (env : AggEnv) : RetryResult Quote :=
  executeWithRetry env.jupiterOp env.jupiterJitter 2 50 200

/-- The quotes contributed by one settled service call (`results.push` on
success, nothing on failure). -/
def okList : Except String Quote → List Quote
  | Except.ok q => [q]
  | Except.error _ => []

/-- The error messages contributed by one settled service call
(`errors.push` on failure, nothing on success). -/
def errList : Except String Quote → List String
  | Except.ok _ => []
  | Except.error m => [m]

/-- Stage 1 of `executeParallelWithFallback` (primary attempt): collected
results, collected errors, and the number of Jupiter invocations made. -/
def stage1 (env : AggEnv) : List Quote × List String × Nat :=
  if 2000 - env.elapsed1 > 200 then
    match (primaryAttempt env).result with
    | Except.ok q => ([q], [], (primaryAttempt env).invocations)
    | Except.error m => ([], [m], (primaryAttempt env).invocations)
  else ([], [], 0)

/-- The early-return test
`results.length > 0 && results[0].confidence === 'high'`. -/
def earlyHigh : List Quote → Bool
  | [] => false
  | q :: _ => decide (q.confidence = Confidence.high)

/-- Stage 2 (parallel dflow/hashflow backup): updated results and errors plus
whether the backup services were invoked.  `Promise.allSettled` preserves the
array order `[dflow, hashflow]` when the fulfilled values are appended. -/
def stage2 (env : AggEnv) (results : List Quote) (errors : List String) :
    List Quote × List String × Bool :=
  if 2000 - env.elapsed2 > 300 then
    (results ++ okList env.dflowOp ++ okList env.hashflowOp,
     errors ++ errList env.dflowOp ++ errList env.hashflowOp, true)
  else (results, errors, false)

/-- Stage 3 (Pyth oracle last resort): updated results and errors plus
whether the oracle was invoked.  The guard is
`results.length === 0 || results.every(r => r.confidence === 'low')`
followed by `finalRemainingTime > 200`. -/
def stage3 (env : AggEnv) (results : List Quote) (errors : List String) :
    List Quote × List String × Bool :=
  if (results = [] ∨ ∀ q ∈ results, q.confidence = Confidence.low) ∧
      2000 - env.elapsed3 > 200 then
    (results ++ okList env.oracleOp, errors ++ errList env.oracleOp, true)
  else (results, errors, false)

/-- `errors.map(e => e.message).join('; ')`. -/
def joinSemi : List String → String
  | [] => ""
  | [e] => e
  | e :: e' :: rest => e ++ "; " ++ joinSemi (e' :: rest)

/-- Message of the aggregate error thrown when no stage produced a quote. -/
def aggMsg (errors : List String) : String :=
  "All quote services failed: " ++ joinSemi errors

/-- `sub` occurs contiguously inside `s` (stated on the character lists). -/
def strOccurs (sub s : String) : Prop :=
  ∃ p q : List Char, s.toList = p ++ sub.toList ++ q

/-- Trace of one `executeParallelWithFallback` run: its outcome, the final
collected results and errors, which services were invoked, and the results
list as it stood when the oracle-stage guard was evaluated. -/
structure AggRun where
  outcome : Except String (List Quote)
  results : List Quote
  errors : List String
  jupiterCalls : Nat
  dflowInvoked : Bool
  hashflowInvoked : Bool
  oracleInvoked : Bool
  resultsPreOracle : List Quote

/-- `QuoteAggregatorService.executeParallelWithFallback`, instrumented with
which services were invoked. -/
def runAgg (env : AggEnv) : AggRun :=
  if earlyHigh (stage1 env).1 = true then
    { outcome := Except.ok (stage1 env).1
      results := (stage1 env).1
      errors := (stage1 env).2.1
      jupiterCalls := (stage1 env).2.2
      dflowInvoked := false
      hashflowInvoked := false
      oracleInvoked := false
      resultsPreOracle := (stage1 env).1 }
  else
    { outcome :=
        if (stage3 env (stage2 env (stage1 env).1 (stage1 env).2.1).1
              (stage2 env (stage1 env).1 (stage1 env).2.1).2.1).1 = [] then
          Except.error
            (aggMsg (stage3 env (stage2 env (stage1 env).1 (stage1 env).2.1).1
              (stage2 env (stage1 env).1 (stage1 env).2.1).2.1).2.1)
        else
          Except.ok (stage3 env (stage2 env (stage1 env).1 (stage1 env).2.1).1
            (stage2 env (stage1 env).1 (stage1 env).2.1).2.1).1
      results := (stage3 env (stage2 env (stage1 env).1 (stage1 env).2.1).1
        (stage2 env (stage1 env).1 (stage1 env).2.1).2.1).1
      errors := (stage3 env (stage2 env (stage1 env).1 (stage1 env).2.1).1
        (stage2 env (stage1 env).1 (stage1 env).2.1).2.1).2.1
      jupiterCalls := (stage1 env).2.2
      dflowInvoked := (stage2 env (stage1 env).1 (stage1 env).2.1).2.2
      hashflowInvoked := (stage2 env (stage1 env).1 (stage1 env).2.1).2.2
      oracleInvoked := (stage3 env (stage2 env (stage1 env).1 (stage1 env).2.1).1
        (stage2 env (stage1 env).1 (stage1 env).2.1).2.1).2.2
      resultsPreOracle := (stage2 env (stage1 env).1 (stage1 env).2.1).1 }

/-- `QuoteAggregatorService.getOptimalQuote`: run the staged fallback, then
select the best collected quote. -/
def getOptimalQuote (lg : ℚ → ℚ) (env : AggEnv) : Except String Quote :=
  match (runAgg env).outcome with
  | Except.error m => Except.error m
  | Except.ok quotes => selectBestQuote lg quotes

/-! ## Concrete sample data used by witnesses and counterexamples -/

/-- A high-confidence Jupiter quote. -/
def qHigh : Quote :=
  { inputAmount := 1000, outputAmount := 500, priceImpactPct := 0, routePlan := []
    otherAmountThreshold := 490, swapMode := "ExactIn", slippageBps := 50
    source := Source.jupiter, confidence := Confidence.high, warnings := [] }

/-- High-confidence Jupiter quote with eight warnings and output 2; together
with `qTieB` it produces a total-score tie. -/
def qTieA : Quote :=
  { inputAmount := 100, outputAmount := 2, priceImpactPct := 0, routePlan := []
    otherAmountThreshold := 1, swapMode := "ExactIn", slippageBps := 50
    source := Source.jupiter, confidence := Confidence.high
    warnings := ["w1", "w2", "w3", "w4", "w5", "w6", "w7", "w8"] }

/-- Medium-confidence Jupiter quote with no warnings and output 12; ties with
`qTieA` on total score under the identity logarithm stand-in. -/
def qTieB : Quote :=
  { inputAmount := 100, outputAmount := 12, priceImpactPct := 0, routePlan := []
    otherAmountThreshold := 11, swapMode := "ExactIn", slippageBps := 50
    source := Source.jupiter, confidence := Confidence.medium, warnings := [] }

/-- Environment in which every upstream service fails. -/
def envAllFail : AggEnv :=
  { jupiterOp := fun _ => Except.error "invalid token"
    jupiterJitter := fun _ => 0
    dflowOp := Except.error "dflow down"
    hashflowOp := Except.error "hashflow down"
    oracleOp := Except.error "oracle down"
    elapsed1 := 0, elapsed2 := 0, elapsed3 := 0 }

/-- Environment in which the primary returns a high-confidence quote at the
first attempt. -/
def envJupHigh : AggEnv :=
  { jupiterOp := fun _ => Except.ok qHigh
    jupiterJitter := fun _ => 0
    dflowOp := Except.error "dflow down"
    hashflowOp := Except.error "hashflow down"
    oracleOp := Except.error "oracle down"
    elapsed1 := 0, elapsed2 := 0, elapsed3 := 0 }

/-- The Jupiter circuit-breaker configuration `new CircuitBreaker(3, 2000,
5000)`. -/
def cfgJupiter : CBConfig :=
  { failureThreshold := 3, timeoutMs := 2000, halfOpenRetryDelayMs := 5000 }

/-- Three consecutive failing calls. -/
def threeFailures : List (Int × String) :=
  [(10, "e1"), (20, "e2"), (30, "e3")]

/-- An open breaker state as produced by three failures, the last at time 30,
under `cfgJupiter`. -/
def stOpen : CircuitBreakerState :=
  { isOpen := true, failureCount := 3, lastFailureTime := 30, nextAttemptTime := 5030 }

/-- Operation failing once with a retryable error, then succeeding. -/
def opRetryableThenOk : Nat → Except String Nat :=
  fun i => if i = 0 then Except.error "boom" else Except.ok 99

/-- Operation failing once with the non-retryable `unauthorized` error, then
succeeding. -/
def opUnauthorizedThenOk : Nat → Except String Nat :=
  fun i => if i = 0 then Except.error "unauthorized" else Except.ok 42

/-- Operation always failing with the non-retryable `invalid amount`
error. -/
def opInvalidAmount : Nat → Except String Nat :=
  fun _ => Except.error "invalid amount"

/-- A dflow quote agreeing with `qScoreTwin` on source, confidence, output
amount and warning count while differing on every other field. -/
def qScoreBase : Quote :=
  { inputAmount := 11, outputAmount := 300, priceImpactPct := 7
    routePlan := ["hop1", "hop2"], otherAmountThreshold := 280
    swapMode := "ExactIn", slippageBps := 50
    source := Source.dflow, confidence := Confidence.medium, warnings := ["a"] }

/-- Companion of `qScoreBase`: same source, confidence, output amount and
warning count, all other fields different. -/
def qScoreTwin : Quote :=
  { inputAmount := 999, outputAmount := 300, priceImpactPct := 0
    routePlan := [], otherAmountThreshold := 1
    swapMode := "ExactOut", slippageBps := 0
    source := Source.dflow, confidence := Confidence.medium, warnings := ["b"] }

/-! ## Circuit breaker lemmas -/

lemma execute_fastfail {α : Type} (cfg : CBConfig) (st : CircuitBreakerState)
    (now : Int) (op : Except String α) (h1 : st.isOpen = true)
    (h2 : now < st.nextAttemptTime) :
    CircuitBreaker.execute cfg st now op = (ExecOutcome.circuitOpen, st) := by
  unfold CircuitBreaker.execute
  rw [if_pos ⟨h1, h2⟩]

lemma execute_closed_fail {α : Type} (cfg : CBConfig) (st : CircuitBreakerState)
    (now : Int) (m : String) (h : st.isOpen = false) :
    CircuitBreaker.execute (α := α) cfg st now (Except.error m) =
      (ExecOutcome.failure m,
        if cfg.failureThreshold ≤ st.failureCount + 1 then
          { st with
            failureCount := st.failureCount + 1
            lastFailureTime := now
            isOpen := true
            nextAttemptTime := now + cfg.halfOpenRetryDelayMs }
        else
          { st with failureCount := st.failureCount + 1, lastFailureTime := now }) := by
  unfold CircuitBreaker.execute
  rw [if_neg (by simp [h])]
  simp only [h, Bool.false_eq_true, if_false]
  split <;> rfl

lemma execute_halfopen_success {α : Type} (cfg : CBConfig)
    (st : CircuitBreakerState) (now : Int) (a : α) (h1 : st.isOpen = true)
    (h2 : st.nextAttemptTime ≤ now) :
    CircuitBreaker.execute cfg st now (Except.ok a) =
      (ExecOutcome.success a, { st with isOpen := false, failureCount := 0 }) := by
  unfold CircuitBreaker.execute
  rw [if_neg (fun hc => absurd hc.2 (not_lt.mpr h2))]
  simp [h1]

lemma failTimes_closed_run (cfg : CBConfig) :
    ∀ (ts : List (Int × String)) (st : CircuitBreakerState),
      st.isOpen = false → st.failureCount + ts.length < cfg.failureThreshold →
      (failTimes cfg st ts).isOpen = false ∧
        (failTimes cfg st ts).failureCount = st.failureCount + ts.length := by
  intro ts
  induction ts with
  | nil =>
      intro st h1 _
      exact ⟨h1, by simp [failTimes]⟩
  | cons f fs ih =>
      intro st h1 h2
      rw [failTimes, execute_closed_fail cfg st f.1 f.2 h1]
      have hc : ¬ cfg.failureThreshold ≤ st.failureCount + 1 := by
        simp only [List.length_cons] at h2; omega
      rw [if_neg hc]
      have h3 := ih { st with failureCount := st.failureCount + 1, lastFailureTime := f.1 }
        h1
        (by show st.failureCount + 1 + fs.length < cfg.failureThreshold
            simp only [List.length_cons] at h2; omega)
      refine ⟨h3.1, ?_⟩
      rw [h3.2]
      show st.failureCount + 1 + fs.length = st.failureCount + (f :: fs).length
      simp only [List.length_cons]
      omega

lemma failTimes_opens (cfg : CBConfig) :
    ∀ (ts : List (Int × String)) (st : CircuitBreakerState) (tl : Int × String),
      st.isOpen = false → st.failureCount + ts.length = cfg.failureThreshold →
      ts.getLast? = some tl →
      (failTimes cfg st ts).isOpen = true ∧
        (failTimes cfg st ts).failureCount = cfg.failureThreshold ∧
        (failTimes cfg st ts).lastFailureTime = tl.1 ∧
        (failTimes cfg st ts).nextAttemptTime = tl.1 + cfg.halfOpenRetryDelayMs := by
  intro ts
  induction ts with
  | nil => intro st tl _ _ hlast; simp at hlast
  | cons f fs ih =>
      intro st tl h1 h2 hlast
      rw [failTimes, execute_closed_fail cfg st f.1 f.2 h1]
      cases fs with
      | nil =>
          have he : cfg.failureThreshold ≤ st.failureCount + 1 := by
            simp only [List.length_cons, List.length_nil] at h2; omega
          rw [if_pos he]
          simp only [List.getLast?_singleton, Option.some.injEq] at hlast
          subst hlast
          have hcount : st.failureCount + 1 = cfg.failureThreshold := by
            simp only [List.length_cons, List.length_nil] at h2; omega
          simp [failTimes, hcount]
      | cons g gs =>
          have hc : ¬ cfg.failureThreshold ≤ st.failureCount + 1 := by
            simp only [List.length_cons] at h2; omega
          rw [if_neg hc]
          have hlast' : (g :: gs).getLast? = some tl := by
            rwa [List.getLast?_cons_cons] at hlast
          exact ih { st with failureCount := st.failureCount + 1, lastFailureTime := f.1 } tl
            h1
            (by show st.failureCount + 1 + (g :: gs).length = cfg.failureThreshold
                simp only [List.length_cons] at h2 ⊢; omega)
            hlast'

/-! ## Claim C2 and C10 theorems -/

/-- Claim C2: after exactly `failureThreshold` consecutive operation failures
the breaker is Open with `nextAttemptTime` equal to the last failure time
plus the open duration; every call before `nextAttemptTime` fast-fails with
the circuit-open error and without invoking the wrapped operation (the
outcome and state are independent of the operation); a successful call at or
after `nextAttemptTime` (the Half-Open trial) closes the breaker and resets
the failure count to zero; and fewer than `failureThreshold` failures leave
the breaker closed. -/
theorem circuit_breaker_open_after_threshold (cfg : CBConfig)
    (ts : List (Int × String)) (tl : Int × String)
    (hlen : ts.length = cfg.failureThreshold)
    (hlast : ts.getLast? = some tl) :
    ((failTimes cfg cbInit ts).isOpen = true ∧
      (failTimes cfg cbInit ts).failureCount = cfg.failureThreshold ∧
      (failTimes cfg cbInit ts).nextAttemptTime = tl.1 + cfg.halfOpenRetryDelayMs) ∧
    (∀ {α : Type} (now : Int) (op : Except String α),
      now < (failTimes cfg cbInit ts).nextAttemptTime →
      CircuitBreaker.execute cfg (failTimes cfg cbInit ts) now op =
        (ExecOutcome.circuitOpen, failTimes cfg cbInit ts)) ∧
    (∀ {α : Type} (now : Int) (a : α),
      (failTimes cfg cbInit ts).nextAttemptTime ≤ now →
      (CircuitBreaker.execute cfg (failTimes cfg cbInit ts) now (Except.ok a)).1 =
          ExecOutcome.success a ∧
        (CircuitBreaker.execute cfg (failTimes cfg cbInit ts) now (Except.ok a)).2.isOpen
          = false ∧
        (CircuitBreaker.execute cfg (failTimes cfg cbInit ts) now (Except.ok a)).2.failureCount
          = 0) ∧
    (∀ ts' : List (Int × String), ts'.length < cfg.failureThreshold →
      (failTimes cfg cbInit ts').isOpen = false) := by
  have hrun := failTimes_opens cfg ts cbInit tl rfl
    (by show 0 + ts.length = cfg.failureThreshold; omega) hlast
  refine ⟨⟨hrun.1, hrun.2.1, hrun.2.2.2⟩, ?_, ?_, ?_⟩
  · intro α now op hlt
    exact execute_fastfail cfg _ now op hrun.1 hlt
  · intro α now a hge
    rw [execute_halfopen_success cfg _ now a hrun.1 hge]
    exact ⟨rfl, rfl, rfl⟩
  · intro ts' hlen'
    exact (failTimes_closed_run cfg ts' cbInit rfl
      (by show 0 + ts'.length < cfg.failureThreshold; omega)).1

/-- Witness for C2: Jupiter's breaker configuration, three failures at times
10, 20, 30; the breaker is then open until 5030, a call at time 5000
fast-fails without touching the operation, and the trial call at time 6000
succeeds and resets the failure count. -/
theorem circuit_breaker_open_after_threshold_witness :
    (failTimes cfgJupiter cbInit threeFailures).isOpen = true ∧
    (failTimes cfgJupiter cbInit threeFailures).nextAttemptTime = 5030 ∧
    CircuitBreaker.execute (α := Nat) cfgJupiter (failTimes cfgJupiter cbInit threeFailures)
        5000 (Except.ok 7) =
      (ExecOutcome.circuitOpen, failTimes cfgJupiter cbInit threeFailures) ∧
    (CircuitBreaker.execute (α := Nat) cfgJupiter (failTimes cfgJupiter cbInit threeFailures)
        6000 (Except.ok 7)).2.failureCount = 0 := by
  have h := circuit_breaker_open_after_threshold cfgJupiter threeFailures (30, "e3")
    (by decide) (by decide)
  have hnext : (failTimes cfgJupiter cbInit threeFailures).nextAttemptTime = 5030 := by
    rw [h.1.2.2]; decide
  refine ⟨h.1.1, hnext, ?_, ?_⟩
  · exact h.2.1 5000 (Except.ok 7) (by rw [hnext]; decide)
  · exact (h.2.2.1 6000 7 (by rw [hnext]; decide)).2.2

/-- Claim C10: when `execute` fast-fails because the breaker is open and the
open period has not elapsed, the outcome is the circuit-open error and the
breaker state is returned entirely unchanged, independently of the wrapped
operation. -/
theorem circuit_open_fastfail_preserves_state {α : Type} (cfg : CBConfig)
    (st : CircuitBreakerState) (now : Int) (op : Except String α)
    (h1 : st.isOpen = true) (h2 : now < st.nextAttemptTime) :
    CircuitBreaker.execute cfg st now op = (ExecOutcome.circuitOpen, st) :=
  execute_fastfail cfg st now op h1 h2

/-- Witness for C10: a breaker opened until time 5030 fast-fails a call at
time 100 and is left with the identical state record. -/
theorem circuit_open_fastfail_preserves_state_witness :
    CircuitBreaker.execute (α := Nat) cfgJupiter stOpen 100 (Except.ok 5) =
      (ExecOutcome.circuitOpen, stOpen) :=
  circuit_open_fastfail_preserves_state cfgJupiter stOpen 100 (Except.ok 5) rfl (by decide)

/-! ## Retry policy lemmas and claim C3 -/

lemma retryGo_ok {α : Type} (op : Nat → Except String α) (jitter : Nat → ℚ)
    (base maxD : ℚ) :
    ∀ (k attempt fuel : Nat) (acc : ℚ) (a : α),
      (∀ i, i < k → ∃ m, op (attempt + i) = Except.error m ∧ isNonRetryableError m = false) →
      op (attempt + k) = Except.ok a →
      k ≤ fuel →
      (retryGo op jitter base maxD attempt fuel acc).result = Except.ok a ∧
        (retryGo op jitter base maxD attempt fuel acc).invocations = attempt + k + 1 := by
  intro k
  induction k with
  | zero =>
      intro attempt fuel acc a _ hok _
      rw [retryGo]
      simp only [Nat.add_zero] at hok
      rw [hok]
      exact ⟨rfl, rfl⟩
  | succ k ih =>
      intro attempt fuel acc a hfail hok hk
      obtain ⟨m, hm, hmr⟩ := hfail 0 (Nat.succ_pos k)
      simp only [Nat.add_zero] at hm
      obtain ⟨fuel', rfl⟩ : ∃ f, fuel = f + 1 := ⟨fuel - 1, by omega⟩
      rw [retryGo, hm]
      simp only [hmr, Bool.false_eq_true, if_false]
      have hres := ih (attempt + 1) fuel'
        (acc + min (base * 2 ^ attempt + jitter attempt) maxD) a
        (fun i hi => by
          have hidx : attempt + 1 + i = attempt + (i + 1) := by omega
          rw [hidx]
          exact hfail (i + 1) (by omega))
        (by
          have hidx : attempt + 1 + k = attempt + (k + 1) := by omega
          rw [hidx]
          exact hok)
        (by omega)
      refine ⟨hres.1, ?_⟩
      rw [hres.2]
      omega

lemma retry_first_nonretryable {α : Type} (op : Nat → Except String α)
    (jitter : Nat → ℚ) (maxRetries : Nat) (base maxD : ℚ) (m : String)
    (h0 : op 0 = Except.error m) (hnr : isNonRetryableError m = true) :
    executeWithRetry op jitter maxRetries base maxD =
      ⟨Except.error m, 0, 1⟩ := by
  unfold executeWithRetry
  rw [retryGo, h0]
  cases maxRetries with
  | zero => rfl
  | succ n => simp [hnr]

/-- Counterexample to claim C3 as stated: the operation fails `k = 1 <
maxAttempts = 2` times and then succeeds with 42, yet `executeWithRetry`
propagates the failure instead of returning the success, because the single
failure is classified non-retryable and stops the loop. -/
theorem retry_success_after_failures_counterexample :
    opUnauthorizedThenOk 0 = Except.error "unauthorized" ∧
    opUnauthorizedThenOk 1 = Except.ok 42 ∧
    (1 : Nat) < 2 ∧
    (executeWithRetry opUnauthorizedThenOk (fun _ => 0) 2 50 200).result =
      Except.error "unauthorized" := by
  refine ⟨rfl, rfl, by omega, ?_⟩
  rfl

/-- Claim C3 amended: for every operation that fails `k < maxAttempts` times
with retryable failures and then succeeds, `executeWithRetry` returns the
success and invokes the operation exactly `k + 1 ≤ maxAttempts` times; and
for every operation whose first failure is classified non-retryable,
`executeWithRetry` invokes the operation exactly once and propagates the
failure with zero accumulated backoff delay. -/
theorem retry_policy_bounded_attempts :
    (∀ {α : Type} (op : Nat → Except String α) (jitter : Nat → ℚ)
        (maxRetries : Nat) (base maxD : ℚ) (k : Nat) (a : α),
      k < maxRetries →
      (∀ i, i < k → ∃ m, op i = Except.error m ∧ isNonRetryableError m = false) →
      op k = Except.ok a →
      (executeWithRetry op jitter maxRetries base maxD).result = Except.ok a ∧
        (executeWithRetry op jitter maxRetries base maxD).invocations = k + 1 ∧
        k + 1 ≤ maxRetries) ∧
    (∀ {α : Type} (op : Nat → Except String α) (jitter : Nat → ℚ)
        (maxRetries : Nat) (base maxD : ℚ) (m : String),
      op 0 = Except.error m → isNonRetryableError m = true →
      executeWithRetry op jitter maxRetries base maxD =
        ⟨Except.error m, 0, 1⟩) := by
  constructor
  · intro α op jitter maxRetries base maxD k a hk hfail hok
    have h := retryGo_ok op jitter base maxD k 0 maxRetries 0 a
      (fun i hi => by simpa using hfail i hi)
      (by simpa using hok)
      (by omega)
    exact ⟨h.1, by simpa using h.2, by omega⟩
  · intro α op jitter maxRetries base maxD m h0 hnr
    exact retry_first_nonretryable op jitter maxRetries base maxD m h0 hnr

/-- Witness for amended C3: a retryable failure followed by success yields
the success in exactly two invocations; a first non-retryable failure stops
after one invocation with no delay. -/
theorem retry_policy_bounded_attempts_witness :
    ((executeWithRetry opRetryableThenOk (fun _ => 0) 2 50 200).result = Except.ok 99 ∧
      (executeWithRetry opRetryableThenOk (fun _ => 0) 2 50 200).invocations = 2 ∧
      1 + 1 ≤ 2) ∧
    executeWithRetry opInvalidAmount (fun _ => 0) 3 100 1000 =
      ⟨Except.error "invalid amount", 0, 1⟩ := by
  constructor
  · exact retry_policy_bounded_attempts.1 opRetryableThenOk (fun _ => 0) 2 50 200 1 99
      (by omega)
      (fun i hi => by
        have hi0 : i = 0 := by omega
        subst hi0
        exact ⟨"boom", rfl, by decide⟩)
      rfl
  · exact retry_policy_bounded_attempts.2 opInvalidAmount (fun _ => 0) 3 100 1000
      "invalid amount" rfl (by decide)

/-! ## Claim C4: primary-source confidence derivation -/

/-- Claim C4: the primary (Jupiter) quote's confidence equals the
claim's table — impact above 5 percent gives low, impact in (1, 5] gives
medium, otherwise high, and a route of more than 4 hops downgrades the level
once more (high to medium, medium or low to low) — and the warnings are
exactly the high-impact warning (when impact exceeds 5) followed by the
complex-routing warning (when the route exceeds 4 hops). -/
theorem jupiter_confidence_from_impact_and_hops (d : JupiterData) :
    (jupiterNormalize d).confidence =
      specJupiterConfidence d.priceImpact d.routePlan.length ∧
    (jupiterNormalize d).warnings =
      (if d.priceImpact > 5 then [highImpactWarning] else []) ++
        (if d.routePlan.length > 4 then [complexRoutingWarning] else []) := by
  constructor
  · unfold jupiterNormalize specJupiterConfidence specImpactConfidence specDowngradeOne
    by_cases h1 : d.priceImpact > 5 <;> by_cases h2 : d.routePlan.length > 4 <;>
      by_cases h3 : d.priceImpact > 1 <;> simp [h1, h2, h3]
  · rfl

/-! ## Claims C7 and C9: scoring function -/

lemma score_formula (lg : ℚ → ℚ) (q : Quote) :
    calculateQuoteScore lg q = specQuoteScore lg q := by
  unfold calculateQuoteScore specQuoteScore
  rcases q with ⟨qin, qout, qimp, qroute, qthr, qmode, qslip, qsrc, qconf, qwarn⟩
  cases qconf <;> cases qsrc <;> cases qwarn <;> simp <;> ring

/-- Claim C7: every quote's score is the sum of the confidence base score
(high 1000, medium 500, low 100), the liquidity term
`lg (outputAmount + 1) * 10`, the source-reliability bonus (jupiter 100,
hashflow 80, dflow 60, pyth-oracle 20), and a penalty of 50 per warning. -/
theorem quote_score_is_sum_of_terms (lg : ℚ → ℚ) (q : Quote) :
    calculateQuoteScore lg q = specQuoteScore lg q :=
  score_formula lg q

/-- Claim C9: two quotes agreeing on source, confidence, output amount and
warning count receive equal scores — no other field influences the score. -/
theorem score_depends_only_on_four_fields (lg : ℚ → ℚ) (q1 q2 : Quote)
    (hs : q1.source = q2.source) (hc : q1.confidence = q2.confidence)
    (ho : q1.outputAmount = q2.outputAmount)
    (hw : q1.warnings.length = q2.warnings.length) :
    calculateQuoteScore lg q1 = calculateQuoteScore lg q2 := by
  rw [score_formula, score_formula]
  unfold specQuoteScore
  rw [hs, hc, ho, hw]

/-- Witness for C9: two quotes sharing only source, confidence, output
amount and warning count receive equal scores. -/
theorem score_depends_only_on_four_fields_witness :
    calculateQuoteScore (fun x => x) qScoreBase =
      calculateQuoteScore (fun x => x) qScoreTwin :=
  score_depends_only_on_four_fields (fun x => x) qScoreBase qScoreTwin rfl rfl rfl rfl


/-! ## Claim C8: selection, ties and ordering -/

lemma leftmostMax_cons_none (lg : ℚ → ℚ) (x : Quote) (xs : List Quote)
    (hm : leftmostMaxByScore lg xs = none) :
    leftmostMaxByScore lg (x :: xs) = some x := by
  rw [leftmostMaxByScore, hm]

lemma leftmostMax_cons_some_le (lg : ℚ → ℚ) (x : Quote) (xs : List Quote) (m : Quote)
    (hm : leftmostMaxByScore lg xs = some m)
    (hc : calculateQuoteScore lg m ≤ calculateQuoteScore lg x) :
    leftmostMaxByScore lg (x :: xs) = some x := by
  rw [leftmostMaxByScore, hm]
  exact if_pos hc

lemma leftmostMax_cons_some_gt (lg : ℚ → ℚ) (x : Quote) (xs : List Quote) (m : Quote)
    (hm : leftmostMaxByScore lg xs = some m)
    (hc : ¬ calculateQuoteScore lg m ≤ calculateQuoteScore lg x) :
    leftmostMaxByScore lg (x :: xs) = some m := by
  rw [leftmostMaxByScore, hm]
  exact if_neg hc

lemma leftmostMax_cons_ne_none (lg : ℚ → ℚ) (x : Quote) (xs : List Quote) :
    leftmostMaxByScore lg (x :: xs) ≠ none := by
  cases hm : leftmostMaxByScore lg xs with
  | none => rw [leftmostMax_cons_none lg x xs hm]; simp
  | some m =>
      by_cases hc : calculateQuoteScore lg m ≤ calculateQuoteScore lg x
      · rw [leftmostMax_cons_some_le lg x xs m hm hc]; simp
      · rw [leftmostMax_cons_some_gt lg x xs m hm hc]; simp

lemma leftmostMax_eq_none (lg : ℚ → ℚ) :
    ∀ l : List Quote, leftmostMaxByScore lg l = none → l = [] := by
  intro l h
  cases l with
  | nil => rfl
  | cons x xs => exact absurd h (leftmostMax_cons_ne_none lg x xs)

lemma leftmostMax_mem (lg : ℚ → ℚ) :
    ∀ (l : List Quote) (q : Quote), leftmostMaxByScore lg l = some q → q ∈ l := by
  intro l
  induction l with
  | nil => intro q h; simp [leftmostMaxByScore] at h
  | cons x xs ih =>
      intro q h
      cases hm : leftmostMaxByScore lg xs with
      | none =>
          rw [leftmostMax_cons_none lg x xs hm] at h
          have hq := Option.some.inj h
          subst hq
          exact List.mem_cons_self x xs
      | some m =>
          by_cases hc : calculateQuoteScore lg m ≤ calculateQuoteScore lg x
          · rw [leftmostMax_cons_some_le lg x xs m hm hc] at h
            have hq := Option.some.inj h
            subst hq
            exact List.mem_cons_self x xs
          · rw [leftmostMax_cons_some_gt lg x xs m hm hc] at h
            have hq := Option.some.inj h
            subst hq
            exact List.mem_cons_of_mem x (ih m hm)

lemma leftmostMax_ge (lg : ℚ → ℚ) :
    ∀ (l : List Quote) (q : Quote), leftmostMaxByScore lg l = some q →
      ∀ p ∈ l, calculateQuoteScore lg p ≤ calculateQuoteScore lg q := by
  intro l
  induction l with
  | nil => intro q _ p hp; simp at hp
  | cons x xs ih =>
      intro q h p hp
      cases hm : leftmostMaxByScore lg xs with
      | none =>
          have hxs : xs = [] := leftmostMax_eq_none lg xs hm
          subst hxs
          rw [leftmostMax_cons_none lg x [] hm] at h
          have hq := Option.some.inj h
          subst hq
          have hpx : p = x := by simpa using hp
          rw [hpx]
      | some m =>
          by_cases hc : calculateQuoteScore lg m ≤ calculateQuoteScore lg x
          · rw [leftmostMax_cons_some_le lg x xs m hm hc] at h
            have hq := Option.some.inj h
            subst hq
            rcases List.mem_cons.mp hp with hpx | hpxs
            · rw [hpx]
            · exact (ih m hm p hpxs).trans hc
          · rw [leftmostMax_cons_some_gt lg x xs m hm hc] at h
            have hq := Option.some.inj h
            subst hq
            rcases List.mem_cons.mp hp with hpx | hpxs
            · rw [hpx]
              exact (lt_of_not_le hc).le
            · exact ih m hm p hpxs

lemma insertByScoreDesc_head_cons (lg : ℚ → ℚ) (x y : Quote) (ys : List Quote) :
    (insertByScoreDesc lg x (y :: ys)).head? =
      if calculateQuoteScore lg y ≤ calculateQuoteScore lg x then some x else some y := by
  by_cases hc : calculateQuoteScore lg y ≤ calculateQuoteScore lg x
  · rw [insertByScoreDesc, if_pos hc, if_pos hc]
    rfl
  · rw [insertByScoreDesc, if_neg hc, if_neg hc]
    rfl

lemma sort_head_eq_leftmostMax (lg : ℚ → ℚ) :
    ∀ l : List Quote, (sortByScoreDesc lg l).head? = leftmostMaxByScore lg l := by
  intro l
  induction l with
  | nil => rfl
  | cons x xs ih =>
      show (insertByScoreDesc lg x (sortByScoreDesc lg xs)).head? =
        leftmostMaxByScore lg (x :: xs)
      cases hs : sortByScoreDesc lg xs with
      | nil =>
          have hnone : leftmostMaxByScore lg xs = none := by rw [← ih, hs]; rfl
          rw [leftmostMax_cons_none lg x xs hnone]
          rfl
      | cons z zs =>
          have hz : leftmostMaxByScore lg xs = some z := by rw [← ih, hs]; rfl
          rw [insertByScoreDesc_head_cons]
          by_cases hc : calculateQuoteScore lg z ≤ calculateQuoteScore lg x
          · rw [if_pos hc, leftmostMax_cons_some_le lg x xs z hz hc]
          · rw [if_neg hc, leftmostMax_cons_some_gt lg x xs z hz hc]

lemma qTieA_score : calculateQuoteScore (fun x => x) qTieA = 730 := by
  norm_num [calculateQuoteScore, qTieA]

lemma qTieB_score : calculateQuoteScore (fun x => x) qTieB = 730 := by
  norm_num [calculateQuoteScore, qTieB]

lemma select_tie_AB :
    selectBestQuote (fun x => x) [qTieA, qTieB] = Except.ok qTieA := by
  have hle : calculateQuoteScore (fun x => x) qTieB ≤
      calculateQuoteScore (fun x => x) qTieA := by
    rw [qTieA_score, qTieB_score]
  unfold selectBestQuote
  rw [show sortByScoreDesc (fun x => x) [qTieA, qTieB] =
      insertByScoreDesc (fun x => x) qTieA [qTieB] from rfl]
  rw [insertByScoreDesc, if_pos hle]

lemma select_tie_BA :
    selectBestQuote (fun x => x) [qTieB, qTieA] = Except.ok qTieB := by
  have hle : calculateQuoteScore (fun x => x) qTieA ≤
      calculateQuoteScore (fun x => x) qTieB := by
    rw [qTieA_score, qTieB_score]
  unfold selectBestQuote
  rw [show sortByScoreDesc (fun x => x) [qTieB, qTieA] =
      insertByScoreDesc (fun x => x) qTieB [qTieA] from rfl]
  rw [insertByScoreDesc, if_pos hle]

/-- Counterexample to claim C8 as stated: `qTieA` and `qTieB` have equal
total score and equal source bonus while `qTieB` has the larger raw output
amount, yet selection on `[qTieA, qTieB]` returns `qTieA` (the larger-output
tie-break is not applied) and on the permuted list returns `qTieB` (the
result depends on input order). -/
theorem selectBestQuote_tie_counterexample :
    calculateQuoteScore (fun x => x) qTieA = calculateQuoteScore (fun x => x) qTieB ∧
    qTieA.source = qTieB.source ∧
    qTieA.outputAmount < qTieB.outputAmount ∧
    List.Perm [qTieA, qTieB] [qTieB, qTieA] ∧
    selectBestQuote (fun x => x) [qTieA, qTieB] = Except.ok qTieA ∧
    selectBestQuote (fun x => x) [qTieB, qTieA] = Except.ok qTieB ∧
    qTieA ≠ qTieB := by
  refine ⟨by rw [qTieA_score, qTieB_score], rfl, by norm_num [qTieA, qTieB],
    List.Perm.swap qTieB qTieA [], select_tie_AB, select_tie_BA, by simp [qTieA, qTieB]⟩

/-- Claim C8 amended: `selectBestQuote` returns the first quote in list
order attaining the maximal total score; a total-score tie is broken by
position in the collected list (earliest wins), not by source-reliability
bonus or output amount, so permutations agree on the result only up to that
input-order tie-break. -/
theorem selectBestQuote_picks_leftmost_max (lg : ℚ → ℚ) (l : List Quote) (q : Quote)
    (h : selectBestQuote lg l = Except.ok q) :
    q ∈ l ∧ (∀ p ∈ l, calculateQuoteScore lg p ≤ calculateQuoteScore lg q) ∧
      leftmostMaxByScore lg l = some q := by
  have hhead : (sortByScoreDesc lg l).head? = some q := by
    unfold selectBestQuote at h
    cases hs : sortByScoreDesc lg l with
    | nil =>
        rw [hs] at h
        change (Except.error "No quotes available" : Except String Quote) = Except.ok q at h
        exact absurd h (by simp)
    | cons z zs =>
        rw [hs] at h
        change Except.ok z = Except.ok q at h
        have hzq : z = q := Except.ok.inj h
        rw [List.head?_cons, hzq]
  have hl : leftmostMaxByScore lg l = some q := by
    rw [← sort_head_eq_leftmostMax lg l]
    exact hhead
  exact ⟨leftmostMax_mem lg l q hl, leftmostMax_ge lg l q hl, hl⟩

/-- Witness for amended C8: on `[qTieA, qTieB]` the selected quote `qTieA`
is a member, its score dominates `qTieB`'s, and it is the leftmost
maximum. -/
theorem selectBestQuote_picks_leftmost_max_witness :
    qTieA ∈ [qTieA, qTieB] ∧
    calculateQuoteScore (fun x => x) qTieB ≤ calculateQuoteScore (fun x => x) qTieA ∧
    leftmostMaxByScore (fun x => x) [qTieA, qTieB] = some qTieA := by
  have h := selectBestQuote_picks_leftmost_max (fun x => x) [qTieA, qTieB] qTieA
    select_tie_AB
  exact ⟨h.1, h.2.1 qTieB (by simp), h.2.2⟩

/-! ## Orchestrator lemmas and claims C1, C5, C6 -/

lemma runAgg_early (env : AggEnv) (h : earlyHigh (stage1 env).1 = true) :
    runAgg env =
      { outcome := Except.ok (stage1 env).1
        results := (stage1 env).1
        errors := (stage1 env).2.1
        jupiterCalls := (stage1 env).2.2
        dflowInvoked := false
        hashflowInvoked := false
        oracleInvoked := false
        resultsPreOracle := (stage1 env).1 } := by
  unfold runAgg
  rw [if_pos h]

lemma runAgg_not_early (env : AggEnv) (h : ¬ earlyHigh (stage1 env).1 = true) :
    runAgg env =
      { outcome :=
          if (stage3 env (stage2 env (stage1 env).1 (stage1 env).2.1).1
                (stage2 env (stage1 env).1 (stage1 env).2.1).2.1).1 = [] then
            Except.error
              (aggMsg (stage3 env (stage2 env (stage1 env).1 (stage1 env).2.1).1
                (stage2 env (stage1 env).1 (stage1 env).2.1).2.1).2.1)
          else
            Except.ok (stage3 env (stage2 env (stage1 env).1 (stage1 env).2.1).1
              (stage2 env (stage1 env).1 (stage1 env).2.1).2.1).1
        results := (stage3 env (stage2 env (stage1 env).1 (stage1 env).2.1).1
          (stage2 env (stage1 env).1 (stage1 env).2.1).2.1).1
        errors := (stage3 env (stage2 env (stage1 env).1 (stage1 env).2.1).1
          (stage2 env (stage1 env).1 (stage1 env).2.1).2.1).2.1
        jupiterCalls := (stage1 env).2.2
        dflowInvoked := (stage2 env (stage1 env).1 (stage1 env).2.1).2.2
        hashflowInvoked := (stage2 env (stage1 env).1 (stage1 env).2.1).2.2
        oracleInvoked := (stage3 env (stage2 env (stage1 env).1 (stage1 env).2.1).1
          (stage2 env (stage1 env).1 (stage1 env).2.1).2.1).2.2
        resultsPreOracle := (stage2 env (stage1 env).1 (stage1 env).2.1).1 } := by
  unfold runAgg
  rw [if_neg h]

lemma earlyHigh_ne_nil (l : List Quote) (h : earlyHigh l = true) : l ≠ [] := by
  cases l with
  | nil => exact absurd h (by simp [earlyHigh])
  | cons x xs => simp

lemma runAgg_outcome (env : AggEnv) :
    (runAgg env).outcome =
      if (runAgg env).results = [] then Except.error (aggMsg (runAgg env).errors)
      else Except.ok (runAgg env).results := by
  by_cases h : earlyHigh (stage1 env).1 = true
  · rw [runAgg_early env h]
    show Except.ok (stage1 env).1 =
      if (stage1 env).1 = [] then Except.error (aggMsg (stage1 env).2.1)
      else Except.ok (stage1 env).1
    rw [if_neg (earlyHigh_ne_nil (stage1 env).1 h)]
  · rw [runAgg_not_early env h]

lemma selectBestQuote_ne_nil (lg : ℚ → ℚ) (l : List Quote) (h : l ≠ []) :
    ∃ q, selectBestQuote lg l = Except.ok q := by
  cases l with
  | nil => exact absurd rfl h
  | cons x xs =>
      have hsort : ∃ z zs, sortByScoreDesc lg (x :: xs) = z :: zs := by
        show ∃ z zs, insertByScoreDesc lg x (sortByScoreDesc lg xs) = z :: zs
        cases hs : sortByScoreDesc lg xs with
        | nil => exact ⟨x, [], rfl⟩
        | cons y ys =>
            by_cases hc : calculateQuoteScore lg y ≤ calculateQuoteScore lg x
            · exact ⟨x, y :: ys, by rw [insertByScoreDesc, if_pos hc]⟩
            · exact ⟨y, insertByScoreDesc lg x ys, by rw [insertByScoreDesc, if_neg hc]⟩
      obtain ⟨z, zs, hz⟩ := hsort
      refine ⟨z, ?_⟩
      unfold selectBestQuote
      rw [hz]

lemma strToList_append (a b : String) : (a ++ b).toList = a.toList ++ b.toList := rfl

lemma strOccurs_append_left (sub p s : String) (h : strOccurs sub s) :
    strOccurs sub (p ++ s) := by
  obtain ⟨a, b, hab⟩ := h
  refine ⟨p.toList ++ a, b, ?_⟩
  show (p ++ s).toList = p.toList ++ a ++ sub.toList ++ b
  have : (p ++ s).toList = p.toList ++ s.toList := rfl
  rw [this, hab]
  simp [List.append_assoc]

lemma mem_joinSemi_occurs :
    ∀ (l : List String) (e : String), e ∈ l → strOccurs e (joinSemi l) := by
  intro l
  induction l with
  | nil => intro e he; simp at he
  | cons x rest ih =>
      intro e he
      cases rest with
      | nil =>
          have hex : e = x := by simpa using he
          subst hex
          exact ⟨[], [], by simp [joinSemi]⟩
      | cons y t =>
          rcases List.mem_cons.mp he with hex | hrest
          · subst hex
            refine ⟨[], ("; " ++ joinSemi (y :: t)).toList, ?_⟩
            simp only [joinSemi, strToList_append]
            simp
          · obtain ⟨a, b, hab⟩ := ih e hrest
            refine ⟨(x ++ "; ").toList ++ a, b, ?_⟩
            simp only [joinSemi, strToList_append]
            rw [hab]
            simp [List.append_assoc]

/-- Claim C1: `getOptimalQuote` fails exactly when the staged fallback
collected no quote, and then it fails with the aggregate error whose message
enumerates (contains) every collected failure reason; whenever at least one
quote was collected — regardless of how many sources failed — the call
succeeds with a quote. -/
theorem aggregate_error_iff_no_quote (lg : ℚ → ℚ) (env : AggEnv) :
    ((runAgg env).results = [] →
      getOptimalQuote lg env = Except.error (aggMsg (runAgg env).errors) ∧
        ∀ e ∈ (runAgg env).errors, strOccurs e (aggMsg (runAgg env).errors)) ∧
    ((runAgg env).results ≠ [] → ∃ q, getOptimalQuote lg env = Except.ok q) := by
  constructor
  · intro hnil
    constructor
    · unfold getOptimalQuote
      rw [runAgg_outcome env, if_pos hnil]
    · intro e he
      exact strOccurs_append_left e "All quote services failed: "
        (joinSemi (runAgg env).errors) (mem_joinSemi_occurs (runAgg env).errors e he)
  · intro hne
    obtain ⟨q, hq⟩ := selectBestQuote_ne_nil lg (runAgg env).results hne
    refine ⟨q, ?_⟩
    unfold getOptimalQuote
    rw [runAgg_outcome env, if_neg hne]
    exact hq

/-- Witness for C1: with every service failing, no quote is collected and
the call fails with the aggregate error message built from the collected
failure reasons. -/
theorem aggregate_error_iff_no_quote_witness :
    (runAgg envAllFail).results = [] ∧
    getOptimalQuote (fun x => x) envAllFail =
      Except.error (aggMsg (runAgg envAllFail).errors) := by
  have hnil : (runAgg envAllFail).results = [] := rfl
  exact ⟨hnil, ((aggregate_error_iff_no_quote (fun x => x) envAllFail).1 hnil).1⟩

/-- Claim C5: when the primary stage is entered and returns a
high-confidence quote, the backup services and the oracle are never invoked
and that primary quote is the final selected result. -/
theorem primary_high_confidence_early_return (lg : ℚ → ℚ) (env : AggEnv) (q : Quote)
    (ht : 2000 - env.elapsed1 > 200)
    (hq : (primaryAttempt env).result = Except.ok q)
    (hc : q.confidence = Confidence.high) :
    (runAgg env).dflowInvoked = false ∧ (runAgg env).hashflowInvoked = false ∧
    (runAgg env).oracleInvoked = false ∧
    (runAgg env).results = [q] ∧
    getOptimalQuote lg env = Except.ok q := by
  have hs1 : stage1 env = ([q], [], (primaryAttempt env).invocations) := by
    unfold stage1
    rw [if_pos ht, hq]
  have hearly : earlyHigh (stage1 env).1 = true := by
    rw [hs1]
    simp [earlyHigh, hc]
  refine ⟨?_, ?_, ?_, ?_, ?_⟩
  · rw [runAgg_early env hearly]
  · rw [runAgg_early env hearly]
  · rw [runAgg_early env hearly]
  · rw [runAgg_early env hearly]
    show (stage1 env).1 = [q]
    rw [hs1]
  · unfold getOptimalQuote
    rw [runAgg_early env hearly, hs1]
    rfl

/-- Witness for C5: a first-attempt high-confidence Jupiter quote short
circuits the backups and the oracle and is returned. -/
theorem primary_high_confidence_early_return_witness :
    (runAgg envJupHigh).dflowInvoked = false ∧
    (runAgg envJupHigh).hashflowInvoked = false ∧
    (runAgg envJupHigh).oracleInvoked = false ∧
    (runAgg envJupHigh).results = [qHigh] ∧
    getOptimalQuote (fun x => x) envJupHigh = Except.ok qHigh :=
  primary_high_confidence_early_return (fun x => x) envJupHigh qHigh (by decide) rfl rfl

lemma stage3_invoked (env : AggEnv) (results : List Quote) (errors : List String) :
    (stage3 env results errors).2.2 = true ↔
      ((results = [] ∨ ∀ q ∈ results, q.confidence = Confidence.low) ∧
        2000 - env.elapsed3 > 200) := by
  unfold stage3
  split
  · rename_i hcond
    simp [hcond]
  · rename_i hcond
    simp [hcond]

/-- Claim C6: the oracle is invoked only when, at the oracle stage, either
no results have been collected or every collected result has low confidence,
and the remaining budget exceeds the 200 ms floor; in every other run the
oracle is not called. -/
theorem oracle_last_resort_guard (env : AggEnv)
    (h : (runAgg env).oracleInvoked = true) :
    ((runAgg env).resultsPreOracle = [] ∨
      ∀ q ∈ (runAgg env).resultsPreOracle, q.confidence = Confidence.low) ∧
    2000 - env.elapsed3 > 200 := by
  by_cases he : earlyHigh (stage1 env).1 = true
  · have hfo : (runAgg env).oracleInvoked = false := by rw [runAgg_early env he]
    rw [hfo] at h
    exact absurd h (by simp)
  · have ho : (runAgg env).oracleInvoked =
        (stage3 env (stage2 env (stage1 env).1 (stage1 env).2.1).1
          (stage2 env (stage1 env).1 (stage1 env).2.1).2.1).2.2 := by
      rw [runAgg_not_early env he]
    have hpre : (runAgg env).resultsPreOracle =
        (stage2 env (stage1 env).1 (stage1 env).2.1).1 := by
      rw [runAgg_not_early env he]
    rw [ho] at h
    rw [hpre]
    exact (stage3_invoked env _ _).mp h

/-- Witness for C6: with every service failing, the oracle stage is entered
(no results collected, budget above the floor). -/
theorem oracle_last_resort_guard_witness :
    (runAgg envAllFail).oracleInvoked = true ∧ 2000 - envAllFail.elapsed3 > 200 := by
  have hinv : (runAgg envAllFail).oracleInvoked = true := rfl
  exact ⟨hinv, (oracle_last_resort_guard envAllFail hinv).2⟩
